import Mathlib

set_option maxHeartbeats 1000000

/-! Shallow embedding of `src/LifeGame.py` (class `LifeGame`).

The mutable object state becomes an explicit record that every operation
takes and returns.  Cells are natural numbers (the source stores 0/1).
Python list indexing is modelled by `pyNth`: a negative index wraps once
from the end of the list, and an index outside `[-len, len)` raises
`IndexError`, modelled as `none`.  The pygame rendering, event polling
and clock calls perform no state changes on the grid model and are
omitted; the random source `random.randint(0, 1)` becomes an explicit
oracle `rnd : Nat → Nat → Fin 2` giving the draw used for cell (r, c). -/

structure LifeGame where
  num_rows : Nat
  num_cols : Nat
  grids : List (List (List Nat))
  active_grid : Nat
  paused : Bool
  game_over : Bool

/-- Python list subscription `l[i]`: non-negative indices are direct,
negative indices wrap once from the end, anything outside `[-len, len)`
is an `IndexError` (`none`). -/
def pyNth {α : Type} (l : List α) (i : Int) : Option α :=
  if 0 ≤ i then l.get? i.toNat
  else if 0 ≤ i + (l.length : Int) then l.get? (i + (l.length : Int)).toNat
  else none

/-- `get_cell` (lines 104-114): reads
`self.grids[self.active_grid][row_num][col_num]` under a bare
`try/except`, returning 0 on any lookup failure. -/
def get_cell (g : LifeGame) (row_num col_num : Int) : Nat :=
  match g.grids.get? g.active_grid with
  | none => 0
  | some buf =>
    match pyNth buf row_num with
    | none => 0
    | some row => (pyNth row col_num).getD 0

/-- The neighbor sum of `check_cell_neighbors` (lines 123-131): the
`find_alive_neighbors` lambda applied to the eight `get_cell` reads, in
the source's argument order. -/
def count_live_neighbors (g : LifeGame) (row_index col_index : Int) : Nat :=
  get_cell g (row_index - 1) (col_index - 1) +
  get_cell g (row_index - 1) col_index +
  get_cell g (row_index - 1) (col_index + 1) +
  get_cell g row_index (col_index - 1) +
  get_cell g row_index (col_index + 1) +
  get_cell g (row_index + 1) (col_index - 1) +
  get_cell g (row_index + 1) (col_index + 1) +
  get_cell g (row_index + 1) col_index

/-- The direct (unguarded) read
`self.grids[self.active_grid][row_index][col_index]` used by lines
134, 141 and 145.  Python would raise out of range; the model totalises
with 0, and every call site passes in-range indices on well-formed
states. -/
def activeCellRaw (g : LifeGame) (row_index col_index : Int) : Nat :=
  match g.grids.get? g.active_grid with
  | none => 0
  | some buf =>
    match pyNth buf row_index with
    | none => 0
    | some row => (pyNth row col_index).getD 0

/-- `check_cell_neighbors` (lines 116-145): neighbor count plus the
life/death rule, mirroring the source's early-return structure. -/
def check_cell_neighbors (g : LifeGame) (row_index col_index : Int) : Nat :=
  let num_alive_neighbors := count_live_neighbors g row_index col_index
  let cur := activeCellRaw g row_index col_index
  if cur = 1 then
    if num_alive_neighbors > 3 then 0
    else if num_alive_neighbors < 2 then 0
    else if num_alive_neighbors = 2 ∨ num_alive_neighbors = 3 then 1
    else cur
  else if cur = 0 then
    if num_alive_neighbors = 3 then 1
    else cur
  else cur

/-- `inactive_grid` (lines 159-165): `(self.active_grid + 1) % 2`. -/
def inactive_grid (g : LifeGame) : Nat := (g.active_grid + 1) % 2

/-- The single assignment `self.grids[i][r][c] = v`.  Python raises if
an index is out of range; the model leaves the state unchanged then
(every call site is in range on well-formed states). -/
def setCell (gs : List (List (List Nat))) (i r c : Nat) (v : Nat) :
    List (List (List Nat)) :=
  match gs.get? i with
  | none => gs
  | some buf =>
    match buf.get? r with
    | none => gs
    | some row => gs.set i (buf.set r (row.set c v))

def setCellG (g : LifeGame) (i r c : Nat) (v : Nat) : LifeGame :=
  { g with grids := setCell g.grids i r c v }

/-- The per-cell value of `set_grid` (lines 71-74): the literal value,
or a fresh `random.randint(0, 1)` draw when `value is None`. -/
def cellValue (value : Option Nat) (rnd : Nat → Nat → Fin 2) (r c : Nat) : Nat :=
  match value with
  | some v => v
  | none => (rnd r c).val

/-- Inner loop of `set_grid`: `for c in range(m)` writing row `r` of
buffer `idx`. -/
def fillInner (value : Option Nat) (idx r : Nat) (rnd : Nat → Nat → Fin 2)
    (g : LifeGame) : Nat → LifeGame
  | 0 => g
  | m + 1 => setCellG (fillInner value idx r rnd g m) idx r m (cellValue value rnd r m)

/-- Outer loop of `set_grid`: `for r in range(n)`. -/
def fillOuter (value : Option Nat) (idx : Nat) (rnd : Nat → Nat → Fin 2)
    (g : LifeGame) : Nat → LifeGame
  | 0 => g
  | n + 1 =>
    let g' := fillOuter value idx rnd g n
    fillInner value idx n rnd g' g'.num_cols

/-- `set_grid` (lines 64-75): writes every cell of buffer `grid` in
row-major order with `cellValue`. -/
def set_grid (g : LifeGame) (value : Option Nat) (grid : Nat)
    (rnd : Nat → Nat → Fin 2) : LifeGame :=
  fillOuter value grid rnd g g.num_rows

/-- Inner loop of `update_generation`: `for c in range(m)`, computing
`check_cell_neighbors` on the current state and writing the result into
the inactive buffer at (r, c). -/
def genInner (r : Nat) (g : LifeGame) : Nat → LifeGame
  | 0 => g
  | m + 1 =>
    let g' := genInner r g m
    setCellG g' (inactive_grid g') r m (check_cell_neighbors g' (r : Int) (m : Int))

/-- Outer loop of `update_generation`: `for r in range(n)` with the
inner loop running over `range(num_cols - 1)`. -/
def genOuter (g : LifeGame) : Nat → LifeGame
  | 0 => g
  | n + 1 =>
    let g' := genOuter g n
    genInner n g' (g'.num_cols - 1)

/-- `update_generation` (lines 147-157): clear the inactive buffer to
all-dead, run the (boundary-omitting) double loop over
`range(num_rows - 1) × range(num_cols - 1)`, then swap the active
index. -/
def update_generation (g : LifeGame) : LifeGame :=
  let g1 := set_grid g (some 0) (inactive_grid g) (fun _ _ => 0)
  let g2 := genOuter g1 (g1.num_rows - 1)
  { g2 with active_grid := inactive_grid g2 }

/-- `create_grid` inside `init_grids` (lines 50-59): `num_rows` rows of
`num_cols` zeros. -/
def create_grid (num_rows num_cols : Nat) : List (List Nat) :=
  List.replicate num_rows (List.replicate num_cols 0)

/-- `__init__` (lines 8-41): derive the dimensions, allocate the two
all-dead buffers (`init_grids`), then `set_grid()` randomizes buffer 0;
`active_grid = 0`, `paused = False`, `game_over = False`. -/
def initLifeGame (screen_width screen_height cell_size : Nat)
    (rnd : Nat → Nat → Fin 2) : LifeGame :=
  let num_cols := screen_width / cell_size
  let num_rows := screen_height / cell_size
  let g : LifeGame :=
    { num_rows := num_rows, num_cols := num_cols,
      grids := [create_grid num_rows num_cols, create_grid num_rows num_cols],
      active_grid := 0, paused := false, game_over := false }
  set_grid g none 0 rnd

/-- The `KEYDOWN` branch of `handle_events` (lines 176-192) for one key:
`s` toggles pause, `r` resets the active index to 0, randomizes buffer 0
and clears the inactive buffer, `q` sets the game-over flag, anything
else is ignored. -/
def handle_key (g : LifeGame) (ch : Char) (rnd : Nat → Nat → Fin 2) : LifeGame :=
  if ch = 's' then { g with paused := !g.paused }
  else if ch = 'r' then
    let g1 : LifeGame := { g with active_grid := 0 }
    let g2 := set_grid g1 none g1.active_grid rnd
    set_grid g2 (some 0) (inactive_grid g2) (fun _ _ => 0)
  else if ch = 'q' then { g with game_over := true }
  else g

/-! Derived observation helpers and well-formedness. -/

/-- Buffer `i` of the state (empty list if the index is out of range). -/
def bufAt (g : LifeGame) (i : Nat) : List (List Nat) := (g.grids.get? i).getD []

/-- The cell of buffer `i` at natural coordinates (r, c); 0 when out of
range. -/
def cellAt (g : LifeGame) (i r c : Nat) : Nat :=
  ((((g.grids.get? i).getD []).get? r).getD []).get? c |>.getD 0

/-- The index a Python subscript `i` resolves to after one negative
wrap. -/
def wrapIdx (n : Nat) (i : Int) : Nat := (if i < 0 then i + (n : Int) else i).toNat

/-- Well-formedness: two buffers, active index in range, both buffers of
shape `num_rows × num_cols` with binary cells. -/
def WF (g : LifeGame) : Prop :=
  g.grids.length = 2 ∧ g.active_grid < 2 ∧
  ∀ buf ∈ g.grids, buf.length = g.num_rows ∧
    ∀ row ∈ buf, row.length = g.num_cols ∧ ∀ x ∈ row, x ≤ 1

instance (g : LifeGame) : Decidable (WF g) := by
  unfold WF; infer_instance

/-- The states reachable from construction by the grid-mutating
operations: `set_grid` with a binary or random fill value and a valid
buffer index, `update_generation`, and the key handler. -/
inductive Reachable : LifeGame → Prop
  | init (w h cs : Nat) (rnd : Nat → Nat → Fin 2) :
      Reachable (initLifeGame w h cs rnd)
  | fill (g : LifeGame) (v : Option Nat) (idx : Nat) (rnd : Nat → Nat → Fin 2) :
      Reachable g → (∀ x, v = some x → x ≤ 1) → idx < 2 →
      Reachable (set_grid g v idx rnd)
  | advance (g : LifeGame) : Reachable g → Reachable (update_generation g)
  | events (g : LifeGame) (ch : Char) (rnd : Nat → Nat → Fin 2) :
      Reachable g → Reachable (handle_key g ch rnd)

/-- All fields except the buffer contents agree with `g0`. -/
def FieldsEq (g0 g : LifeGame) : Prop :=
  g.num_rows = g0.num_rows ∧ g.num_cols = g0.num_cols ∧
  g.active_grid = g0.active_grid ∧ g.paused = g0.paused ∧
  g.game_over = g0.game_over ∧ g.grids.length = g0.grids.length

/-- Fields agree with `g0` and the active buffer is untouched. -/
def StInv (g0 g : LifeGame) : Prop :=
  FieldsEq g0 g ∧ g.grids.get? g0.active_grid = g0.grids.get? g0.active_grid

/-! The blinker oscillator: a vertical or horizontal bar of three live
cells, described by its centre (rc, cc). -/

/-- Vertical blinker with centre (rc, cc): live cells at rows
rc−1, rc, rc+1 of column cc. -/
def blinkerV (rc cc r c : Nat) : Prop :=
  c = cc ∧ (r + 1 = rc ∨ r = rc ∨ r = rc + 1)

/-- Horizontal blinker with centre (rc, cc): live cells at columns
cc−1, cc, cc+1 of row rc. -/
def blinkerH (rc cc r c : Nat) : Prop :=
  r = rc ∧ (c + 1 = cc ∨ c = cc ∨ c = cc + 1)

instance (rc cc r c : Nat) : Decidable (blinkerV rc cc r c) := by
  unfold blinkerV; infer_instance

instance (rc cc r c : Nat) : Decidable (blinkerH rc cc r c) := by
  unfold blinkerH; infer_instance


/-! Spec-side definitions and concrete example states used by the
verification below. -/

/-- The spec's bounds-checked read (§4.1 `get`, as the spec words it:
"returns dead (0) if (row,col) falls outside [0,num_rows)×[0,num_cols)"),
for comparison with the implementation's `get_cell`. -/
def specGet (g : LifeGame) (row col : Int) : Nat :=
  if 0 ≤ row ∧ row < (g.num_rows : Int) ∧ 0 ≤ col ∧ col < (g.num_cols : Int)
  then cellAt g g.active_grid row.toNat col.toNat else 0

/-- The spec's neighbor count (§4.2 `count_live_neighbors`, as the spec
words it: the 8 Moore-neighborhood states with "any position outside
the grid as dead"), for comparison with the implementation's sum. -/
def mooreCountSpec (g : LifeGame) (row col : Int) : Nat :=
  specGet g (row - 1) (col - 1) + specGet g (row - 1) col +
  specGet g (row - 1) (col + 1) + specGet g row (col - 1) +
  specGet g row (col + 1) + specGet g (row + 1) (col - 1) +
  specGet g (row + 1) (col + 1) + specGet g (row + 1) col

/-- A constant random oracle (all draws 0). -/
def rnd0 : Nat → Nat → Fin 2 := fun _ _ => 0

/-- A non-constant random oracle, used to observe the randomize fill. -/
def rndAlt : Nat → Nat → Fin 2 := fun r c => ⟨(r + c) % 2, by omega⟩

/-- 2×2 state, live cell in the last row of the active buffer. -/
def gWrap : LifeGame :=
  { num_rows := 2, num_cols := 2,
    grids := [[[0, 0], [1, 0]], [[0, 0], [0, 0]]],
    active_grid := 0, paused := false, game_over := false }

/-- 3×3 state, live cell at (2,1) of the active buffer. -/
def gMoore : LifeGame :=
  { num_rows := 3, num_cols := 3,
    grids := [[[0, 0, 0], [0, 0, 0], [0, 1, 0]],
              [[0, 0, 0], [0, 0, 0], [0, 0, 0]]],
    active_grid := 0, paused := false, game_over := false }

/-- 2×2 state, live cell at (0,0) of the active buffer. -/
def gCorner : LifeGame :=
  { num_rows := 2, num_cols := 2,
    grids := [[[1, 0], [0, 0]], [[0, 0], [0, 0]]],
    active_grid := 0, paused := false, game_over := false }

/-- 2×2 state, both buffers all dead. -/
def gDead : LifeGame :=
  { num_rows := 2, num_cols := 2,
    grids := [[[0, 0], [0, 0]], [[0, 0], [0, 0]]],
    active_grid := 0, paused := false, game_over := false }

/-- 3×3 state, single live cell at (1,1) of the active buffer. -/
def gLone : LifeGame :=
  { num_rows := 3, num_cols := 3,
    grids := [[[0, 0, 0], [0, 1, 0], [0, 0, 0]],
              [[0, 0, 0], [0, 0, 0], [0, 0, 0]]],
    active_grid := 0, paused := false, game_over := false }

/-- 8×8 state, vertical blinker centred at (3,3) in the active buffer. -/
def gBlink : LifeGame :=
  { num_rows := 8, num_cols := 8,
    grids := [[[0, 0, 0, 0, 0, 0, 0, 0],
               [0, 0, 0, 0, 0, 0, 0, 0],
               [0, 0, 0, 1, 0, 0, 0, 0],
               [0, 0, 0, 1, 0, 0, 0, 0],
               [0, 0, 0, 1, 0, 0, 0, 0],
               [0, 0, 0, 0, 0, 0, 0, 0],
               [0, 0, 0, 0, 0, 0, 0, 0],
               [0, 0, 0, 0, 0, 0, 0, 0]],
              [[0, 0, 0, 0, 0, 0, 0, 0],
               [0, 0, 0, 0, 0, 0, 0, 0],
               [0, 0, 0, 0, 0, 0, 0, 0],
               [0, 0, 0, 0, 0, 0, 0, 0],
               [0, 0, 0, 0, 0, 0, 0, 0],
               [0, 0, 0, 0, 0, 0, 0, 0],
               [0, 0, 0, 0, 0, 0, 0, 0],
               [0, 0, 0, 0, 0, 0, 0, 0]]],
    active_grid := 0, paused := false, game_over := false }

/-! Basic lemmas about list access and Python indexing. -/

theorem get_some_lt {α : Type} {l : List α} {i : Nat} {a : α}
    (h : l.get? i = some a) : i < l.length := by
  by_contra hc
  rw [List.get?_len_le (Nat.le_of_not_lt hc)] at h
  exact Option.noConfusion h

theorem get_some_of_lt {α : Type} (l : List α) (i : Nat) (h : i < l.length) :
    ∃ a, l.get? i = some a :=
  ⟨l.get ⟨i, h⟩, List.get?_eq_get h⟩

theorem pyNth_eq {α : Type} (l : List α) (i : Int) :
    pyNth l i =
      if -(l.length : Int) ≤ i ∧ i < (l.length : Int)
      then l.get? (wrapIdx l.length i) else none := by
  unfold pyNth wrapIdx
  rcases le_or_lt 0 i with h0 | h0
  · rw [if_pos h0, if_neg (by omega : ¬ i < 0)]
    rcases lt_or_le i (l.length : Int) with h1 | h1
    · rw [if_pos ⟨by omega, h1⟩]
    · rw [if_neg (by omega : ¬ (-(l.length : Int) ≤ i ∧ i < (l.length : Int)))]
      exact List.get?_len_le (by omega)
  · rw [if_neg (by omega : ¬ 0 ≤ i)]
    rcases le_or_lt 0 (i + (l.length : Int)) with h1 | h1
    · rw [if_pos h1, if_pos ⟨by omega, by omega⟩, if_pos h0]
    · rw [if_neg (by omega : ¬ 0 ≤ i + (l.length : Int)),
        if_neg (by omega : ¬ (-(l.length : Int) ≤ i ∧ i < (l.length : Int)))]

theorem inactive_ne_active (g : LifeGame) :
    inactive_grid g ≠ g.active_grid := by
  unfold inactive_grid; omega

theorem inactive_lt_two (g : LifeGame) : inactive_grid g < 2 := by
  unfold inactive_grid; omega

/-! Congruence: the read-side functions depend on the state only through
the active buffer. -/

theorem get_cell_congr (g g' : LifeGame)
    (h : g.grids.get? g.active_grid = g'.grids.get? g'.active_grid)
    (i j : Int) : get_cell g i j = get_cell g' i j := by
  unfold get_cell; rw [h]

theorem activeCellRaw_congr (g g' : LifeGame)
    (h : g.grids.get? g.active_grid = g'.grids.get? g'.active_grid)
    (i j : Int) : activeCellRaw g i j = activeCellRaw g' i j := by
  unfold activeCellRaw; rw [h]

theorem check_congr (g g' : LifeGame)
    (h : g.grids.get? g.active_grid = g'.grids.get? g'.active_grid)
    (i j : Int) : check_cell_neighbors g i j = check_cell_neighbors g' i j := by
  have hg : ∀ a b, get_cell g a b = get_cell g' a b := get_cell_congr g g' h
  have hr : ∀ a b, activeCellRaw g a b = activeCellRaw g' a b := activeCellRaw_congr g g' h
  unfold check_cell_neighbors count_live_neighbors
  simp only [hg, hr]

/-! Lemmas about the single-cell write. -/

theorem setCell_length (gs : List (List (List Nat))) (i r c v : Nat) :
    (setCell gs i r c v).length = gs.length := by
  unfold setCell
  split
  · rfl
  · split
    · rfl
    · exact List.length_set gs i _

theorem setCell_get_ne (gs : List (List (List Nat))) (i r c v j : Nat)
    (h : i ≠ j) : (setCell gs i r c v).get? j = gs.get? j := by
  unfold setCell
  split
  · rfl
  · split
    · rfl
    · exact List.get?_set_ne _ _ h

theorem setCell_eq_set (gs : List (List (List Nat))) (i r c v : Nat)
    (buf : List (List Nat)) (row : List Nat)
    (hgi : gs.get? i = some buf) (hbr : buf.get? r = some row) :
    setCell gs i r c v = gs.set i (buf.set r (row.set c v)) := by
  unfold setCell
  split
  · next heq => rw [hgi] at heq; exact Option.noConfusion heq
  · next b heq =>
    rw [hgi] at heq
    injection heq with heq
    subst heq
    split
    · next heq2 => rw [hbr] at heq2; exact Option.noConfusion heq2
    · next rw2 heq2 =>
      rw [hbr] at heq2
      injection heq2 with heq2
      subst heq2
      rfl

theorem setCell_get_eq (gs : List (List (List Nat))) (i r c v : Nat)
    (buf : List (List Nat)) (row : List Nat)
    (hgi : gs.get? i = some buf) (hbr : buf.get? r = some row) :
    (setCell gs i r c v).get? i = some (buf.set r (row.set c v)) := by
  rw [setCell_eq_set gs i r c v buf row hgi hbr]
  exact List.get?_set_eq_of_lt _ (get_some_lt hgi)

/-! Shape facts from well-formedness, and the characterization of
`get_cell` as a wrap-then-read on the active buffer. -/

theorem wf_buf (g : LifeGame) (h : WF g) (i : Nat) (hi : i < 2) :
    ∃ buf, g.grids.get? i = some buf ∧ buf.length = g.num_rows ∧
      ∀ row ∈ buf, row.length = g.num_cols ∧ ∀ x ∈ row, x ≤ 1 := by
  obtain ⟨hlen, _, hall⟩ := h
  obtain ⟨buf, hbuf⟩ := get_some_of_lt g.grids i (by omega)
  exact ⟨buf, hbuf, hall buf (List.get?_mem hbuf)⟩

theorem wrapIdx_lt (n : Nat) (i : Int) (h1 : -(n : Int) ≤ i) (h2 : i < (n : Int)) :
    wrapIdx n i < n := by
  unfold wrapIdx; split <;> omega

theorem get_cell_char (g : LifeGame) (h : WF g) (i j : Int) :
    get_cell g i j =
      if -(g.num_rows : Int) ≤ i ∧ i < (g.num_rows : Int) ∧
         -(g.num_cols : Int) ≤ j ∧ j < (g.num_cols : Int)
      then cellAt g g.active_grid (wrapIdx g.num_rows i) (wrapIdx g.num_cols j)
      else 0 := by
  obtain ⟨buf, hbuf, hblen, hrows⟩ := wf_buf g h g.active_grid h.2.1
  unfold get_cell cellAt
  rw [hbuf]
  simp only [Option.getD_some]
  by_cases hi : -(g.num_rows : Int) ≤ i ∧ i < (g.num_rows : Int)
  · have hwi : wrapIdx g.num_rows i < g.num_rows := wrapIdx_lt _ _ hi.1 hi.2
    obtain ⟨row, hrow⟩ := get_some_of_lt buf _ (by rw [hblen]; exact hwi)
    have hpy : pyNth buf i = some row := by
      rw [pyNth_eq, hblen, if_pos ⟨hi.1, hi.2⟩]; exact hrow
    simp only [hpy]
    have hrowlen := (hrows row (List.get?_mem hrow)).1
    rw [hrow]
    simp only [Option.getD_some]
    by_cases hj : -(g.num_cols : Int) ≤ j ∧ j < (g.num_cols : Int)
    · have hwj : wrapIdx g.num_cols j < g.num_cols := wrapIdx_lt _ _ hj.1 hj.2
      obtain ⟨x, hx⟩ := get_some_of_lt row _ (by rw [hrowlen]; exact hwj)
      have hpy2 : pyNth row j = some x := by
        rw [pyNth_eq, hrowlen, if_pos ⟨hj.1, hj.2⟩]; exact hx
      rw [hpy2, if_pos ⟨hi.1, hi.2, hj.1, hj.2⟩, hx]
    · have hpy2 : pyNth row j = none := by
        rw [pyNth_eq, hrowlen, if_neg (by tauto)]
      rw [hpy2, if_neg (by tauto)]
      rfl
  · have hpy : pyNth buf i = none := by
      rw [pyNth_eq, hblen, if_neg (by tauto)]
    simp only [hpy]
    rw [if_neg (by tauto)]

theorem cellAt_le_one (g : LifeGame) (h : WF g) (i r c : Nat) :
    cellAt g i r c ≤ 1 := by
  unfold cellAt
  rcases hgi : g.grids.get? i with _ | buf
  · simp
  · simp only [Option.getD_some]
    rcases hbr : buf.get? r with _ | row
    · simp
    · simp only [Option.getD_some]
      rcases hrc : row.get? c with _ | x
      · simp
      · simp only [Option.getD_some]
        have hb := h.2.2 buf (List.get?_mem hgi)
        exact (hb.2 row (List.get?_mem hbr)).2 x (List.get?_mem hrc)

/-! State-shape invariants threaded through the mutation loops. -/

theorem fieldsEq_refl (g : LifeGame) : FieldsEq g g :=
  ⟨rfl, rfl, rfl, rfl, rfl, rfl⟩

theorem fieldsEq_trans {g0 g1 g2 : LifeGame}
    (h1 : FieldsEq g0 g1) (h2 : FieldsEq g1 g2) : FieldsEq g0 g2 := by
  obtain ⟨a1, b1, c1, d1, e1, f1⟩ := h1
  obtain ⟨a2, b2, c2, d2, e2, f2⟩ := h2
  exact ⟨a2.trans a1, b2.trans b1, c2.trans c1, d2.trans d1, e2.trans e1, f2.trans f1⟩

theorem stInv_refl (g : LifeGame) : StInv g g := ⟨fieldsEq_refl g, rfl⟩

theorem setCellG_fieldsEq (g : LifeGame) (i r c v : Nat) :
    FieldsEq g (setCellG g i r c v) :=
  ⟨rfl, rfl, rfl, rfl, rfl, setCell_length g.grids i r c v⟩

/-! Characterization of the `update_generation` inner loop: it preserves
every field and the active buffer, and writes
`check_cell_neighbors` values (evaluated, thanks to the preserved active
buffer, on the loop-entry state `g0`) into columns `0..m-1` of row `r`
of the inactive buffer. -/

theorem genInner_spec (g0 : LifeGame) (r : Nat) :
    ∀ (m : Nat) (g : LifeGame) (b : List (List Nat)) (row : List Nat),
      StInv g0 g →
      g.grids.get? (inactive_grid g0) = some b →
      b.get? r = some row →
      StInv g0 (genInner r g m) ∧
      ∃ b', (genInner r g m).grids.get? (inactive_grid g0) = some b' ∧
        b'.length = b.length ∧
        (∀ r', r' ≠ r → b'.get? r' = b.get? r') ∧
        ∃ row', b'.get? r = some row' ∧ row'.length = row.length ∧
          ∀ c, row'.get? c =
            if c < m ∧ c < row.length
            then some (check_cell_neighbors g0 (r : Int) (c : Int))
            else row.get? c := by
  intro m
  induction m with
  | zero =>
    intro g b row hst hb hrow
    refine ⟨hst, b, hb, rfl, fun r' _ => rfl, row, hrow, rfl, fun c => ?_⟩
    rw [if_neg (by omega)]
  | succ m ih =>
    intro g b row hst hb hrow
    obtain ⟨hst', b', hb', hlen', hne', row', hrow', hrlen', hcells'⟩ :=
      ih g b row hst hb hrow
    have hact : (genInner r g m).active_grid = g0.active_grid := hst'.1.2.2.1
    have hinact : inactive_grid (genInner r g m) = inactive_grid g0 := by
      unfold inactive_grid; rw [hact]
    have hchk : check_cell_neighbors (genInner r g m) (r : Int) (m : Int) =
        check_cell_neighbors g0 (r : Int) (m : Int) :=
      check_congr _ _ (by rw [hact]; exact hst'.2) _ _
    simp only [genInner, hinact, hchk]
    set G := genInner r g m with hG
    set v := check_cell_neighbors g0 (r : Int) (m : Int) with hv
    have hset : (setCellG G (inactive_grid g0) r m v).grids =
        G.grids.set (inactive_grid g0) (b'.set r (row'.set m v)) := by
      show setCell G.grids (inactive_grid g0) r m v = _
      exact setCell_eq_set _ _ _ _ _ _ _ hb' hrow'
    constructor
    · refine ⟨fieldsEq_trans hst'.1 (setCellG_fieldsEq G (inactive_grid g0) r m v), ?_⟩
      show (setCellG G (inactive_grid g0) r m v).grids.get? g0.active_grid = _
      rw [hset, List.get?_set_ne _ _ (inactive_ne_active g0)]
      exact hst'.2
    · refine ⟨b'.set r (row'.set m v), ?_, ?_, ?_, row'.set m v, ?_, ?_, ?_⟩
      · show (setCellG G (inactive_grid g0) r m v).grids.get? (inactive_grid g0) = _
        rw [hset]
        exact List.get?_set_eq_of_lt _ (get_some_lt hb')
      · rw [List.length_set]; exact hlen'
      · intro r' hr'
        rw [List.get?_set_ne _ _ (Ne.symm hr')]
        exact hne' r' hr'
      · exact List.get?_set_eq_of_lt _ (get_some_lt hrow')
      · rw [List.length_set]; exact hrlen'
      · intro c
        rcases eq_or_ne c m with hc | hc
        · subst hc
          rcases lt_or_le c row.length with hcl | hcl
          · rw [List.get?_set_eq_of_lt _ (by rw [hrlen']; exact hcl),
              if_pos ⟨by omega, hcl⟩]
          · have h1 : (row'.set c v).get? c = none :=
              List.get?_len_le (by rw [List.length_set, hrlen']; exact hcl)
            have h2 : row.get? c = none := List.get?_len_le hcl
            rw [h1, if_neg (by omega), h2]
        · rw [List.get?_set_ne _ _ (Ne.symm hc), hcells' c]
          rcases lt_or_le c m with hcm | hcm
          · by_cases hcl : c < row.length
            · rw [if_pos ⟨hcm, hcl⟩, if_pos ⟨by omega, hcl⟩]
            · rw [if_neg (by omega), if_neg (by omega)]
          · rw [if_neg (by omega), if_neg (by omega)]

/-! Characterization of the `update_generation` outer loop. -/

theorem genOuter_spec (g0 : LifeGame) :
    ∀ (n : Nat) (g : LifeGame) (b : List (List Nat)),
      StInv g0 g →
      g.grids.get? (inactive_grid g0) = some b →
      n ≤ b.length →
      StInv g0 (genOuter g n) ∧
      ∃ b', (genOuter g n).grids.get? (inactive_grid g0) = some b' ∧
        b'.length = b.length ∧
        ∀ r', (n ≤ r' → b'.get? r' = b.get? r') ∧
          (r' < n → ∃ row, b.get? r' = some row ∧
            ∃ row', b'.get? r' = some row' ∧ row'.length = row.length ∧
              ∀ c, row'.get? c =
                if c < g0.num_cols - 1 ∧ c < row.length
                then some (check_cell_neighbors g0 (r' : Int) (c : Int))
                else row.get? c) := by
  intro n
  induction n with
  | zero =>
    intro g b hst hb _
    exact ⟨hst, b, hb, rfl, fun r' => ⟨fun _ => rfl, fun h => absurd h (Nat.not_lt_zero r')⟩⟩
  | succ n ih =>
    intro g b hst hb hn
    obtain ⟨hstn, bn, hbn, hbnlen, hrows⟩ := ih g b hst hb (by omega)
    have hncols : (genOuter g n).num_cols = g0.num_cols := hstn.1.2.1
    obtain ⟨rown, hrown⟩ := get_some_of_lt bn n (by omega)
    have hbrow : b.get? n = some rown := by rw [← (hrows n).1 (le_refl n)]; exact hrown
    obtain ⟨hstf, bf, hbf, hbflen, hbfne, rowf, hrowf, hrowflen, hcellsf⟩ :=
      genInner_spec g0 n (g0.num_cols - 1) (genOuter g n) bn rown hstn hbn hrown
    simp only [genOuter, hncols]
    refine ⟨hstf, bf, hbf, by omega, fun r' => ⟨fun hle => ?_, fun hlt => ?_⟩⟩
    · rw [hbfne r' (by omega)]
      exact (hrows r').1 (by omega)
    · rcases eq_or_ne r' n with hr | hr
      · subst hr
        exact ⟨rown, hbrow, rowf, hrowf, hrowflen, hcellsf⟩
      · rw [hbfne r' hr]
        exact (hrows r').2 (by omega)

/-! Characterization of the `set_grid` fill loops. -/

theorem fillInner_spec (value : Option Nat) (idx r : Nat) (rnd : Nat → Nat → Fin 2) :
    ∀ (m : Nat) (g : LifeGame) (b : List (List Nat)) (row : List Nat),
      g.grids.get? idx = some b →
      b.get? r = some row →
      FieldsEq g (fillInner value idx r rnd g m) ∧
      (∀ j, j ≠ idx → (fillInner value idx r rnd g m).grids.get? j = g.grids.get? j) ∧
      ∃ b', (fillInner value idx r rnd g m).grids.get? idx = some b' ∧
        b'.length = b.length ∧
        (∀ r', r' ≠ r → b'.get? r' = b.get? r') ∧
        ∃ row', b'.get? r = some row' ∧ row'.length = row.length ∧
          ∀ c, row'.get? c =
            if c < m ∧ c < row.length
            then some (cellValue value rnd r c)
            else row.get? c := by
  intro m
  induction m with
  | zero =>
    intro g b row hb hrow
    refine ⟨fieldsEq_refl g, fun j _ => rfl, b, hb, rfl, fun r' _ => rfl,
      row, hrow, rfl, fun c => ?_⟩
    rw [if_neg (by omega)]
  | succ m ih =>
    intro g b row hb hrow
    obtain ⟨hfe, hje, b', hb', hlen', hne', row', hrow', hrlen', hcells'⟩ :=
      ih g b row hb hrow
    simp only [fillInner]
    set G := fillInner value idx r rnd g m with hG
    set v := cellValue value rnd r m with hv
    have hset : (setCellG G idx r m v).grids =
        G.grids.set idx (b'.set r (row'.set m v)) := by
      show setCell G.grids idx r m v = _
      exact setCell_eq_set _ _ _ _ _ _ _ hb' hrow'
    refine ⟨fieldsEq_trans hfe (setCellG_fieldsEq G idx r m v), fun j hj => ?_,
      b'.set r (row'.set m v), ?_, ?_, ?_, row'.set m v, ?_, ?_, ?_⟩
    · show (setCellG G idx r m v).grids.get? j = _
      rw [hset, List.get?_set_ne _ _ (Ne.symm hj)]
      exact hje j hj
    · show (setCellG G idx r m v).grids.get? idx = _
      rw [hset]
      exact List.get?_set_eq_of_lt _ (get_some_lt hb')
    · rw [List.length_set]; exact hlen'
    · intro r' hr'
      rw [List.get?_set_ne _ _ (Ne.symm hr')]
      exact hne' r' hr'
    · exact List.get?_set_eq_of_lt _ (get_some_lt hrow')
    · rw [List.length_set]; exact hrlen'
    · intro c
      rcases eq_or_ne c m with hc | hc
      · subst hc
        rcases lt_or_le c row.length with hcl | hcl
        · rw [List.get?_set_eq_of_lt _ (by rw [hrlen']; exact hcl),
            if_pos ⟨by omega, hcl⟩]
        · have h1 : (row'.set c v).get? c = none :=
            List.get?_len_le (by rw [List.length_set, hrlen']; exact hcl)
          have h2 : row.get? c = none := List.get?_len_le hcl
          rw [h1, if_neg (by omega), h2]
      · rw [List.get?_set_ne _ _ (Ne.symm hc), hcells' c]
        rcases lt_or_le c m with hcm | hcm
        · by_cases hcl : c < row.length
          · rw [if_pos ⟨hcm, hcl⟩, if_pos ⟨by omega, hcl⟩]
          · rw [if_neg (by omega), if_neg (by omega)]
        · rw [if_neg (by omega), if_neg (by omega)]

theorem fillOuter_spec (value : Option Nat) (idx : Nat) (rnd : Nat → Nat → Fin 2) :
    ∀ (n : Nat) (g : LifeGame) (b : List (List Nat)),
      g.grids.get? idx = some b →
      n ≤ b.length →
      FieldsEq g (fillOuter value idx rnd g n) ∧
      (∀ j, j ≠ idx → (fillOuter value idx rnd g n).grids.get? j = g.grids.get? j) ∧
      ∃ b', (fillOuter value idx rnd g n).grids.get? idx = some b' ∧
        b'.length = b.length ∧
        ∀ r', (n ≤ r' → b'.get? r' = b.get? r') ∧
          (r' < n → ∃ row, b.get? r' = some row ∧
            ∃ row', b'.get? r' = some row' ∧ row'.length = row.length ∧
              ∀ c, row'.get? c =
                if c < g.num_cols ∧ c < row.length
                then some (cellValue value rnd r' c)
                else row.get? c) := by
  intro n
  induction n with
  | zero =>
    intro g b hb _
    exact ⟨fieldsEq_refl g, fun j _ => rfl, b, hb, rfl,
      fun r' => ⟨fun _ => rfl, fun h => absurd h (Nat.not_lt_zero r')⟩⟩
  | succ n ih =>
    intro g b hb hn
    obtain ⟨hfen, hjen, bn, hbn, hbnlen, hrows⟩ := ih g b hb (by omega)
    have hncols : (fillOuter value idx rnd g n).num_cols = g.num_cols := hfen.2.1
    obtain ⟨rown, hrown⟩ := get_some_of_lt bn n (by omega)
    have hbrow : b.get? n = some rown := by rw [← (hrows n).1 (le_refl n)]; exact hrown
    obtain ⟨hfef, hjef, bf, hbf, hbflen, hbfne, rowf, hrowf, hrowflen, hcellsf⟩ :=
      fillInner_spec value idx n rnd ((fillOuter value idx rnd g n).num_cols)
        (fillOuter value idx rnd g n) bn rown hbn hrown
    simp only [fillOuter]
    rw [hncols] at hcellsf
    refine ⟨fieldsEq_trans hfen hfef, fun j hj => ?_, bf, hbf, by omega,
      fun r' => ⟨fun hle => ?_, fun hlt => ?_⟩⟩
    · rw [hjef j hj]
      exact hjen j hj
    · rw [hbfne r' (by omega)]
      exact (hrows r').1 (by omega)
    · rcases eq_or_ne r' n with hr | hr
      · subst hr
        exact ⟨rown, hbrow, rowf, hrowf, hrowflen, hcellsf⟩
      · rw [hbfne r' hr]
        exact (hrows r').2 (by omega)

/-! Small helpers to read `cellAt` off positional facts. -/

theorem cellAt_eq_of (g : LifeGame) (i r c : Nat) (b : List (List Nat))
    (row : List Nat) (x : Nat) (hb : g.grids.get? i = some b)
    (hrow : b.get? r = some row) (hx : row.get? c = some x) :
    cellAt g i r c = x := by
  unfold cellAt
  rw [hb]
  simp only [Option.getD_some]
  rw [hrow]
  simp only [Option.getD_some]
  rw [hx]
  rfl

theorem cellAt_zero_of_buf_none (g : LifeGame) (i r c : Nat)
    (hb : g.grids.get? i = none) : cellAt g i r c = 0 := by
  unfold cellAt; rw [hb]; rfl

theorem cellAt_zero_of_row_none (g : LifeGame) (i r c : Nat)
    (b : List (List Nat)) (hb : g.grids.get? i = some b)
    (hrow : b.get? r = none) : cellAt g i r c = 0 := by
  unfold cellAt
  rw [hb]
  simp only [Option.getD_some]
  rw [hrow]
  rfl

theorem cellAt_zero_of_cell_none (g : LifeGame) (i r c : Nat)
    (b : List (List Nat)) (row : List Nat) (hb : g.grids.get? i = some b)
    (hrow : b.get? r = some row) (hx : row.get? c = none) :
    cellAt g i r c = 0 := by
  unfold cellAt
  rw [hb]
  simp only [Option.getD_some]
  rw [hrow]
  simp only [Option.getD_some]
  rw [hx]
  rfl

theorem activeCellRaw_eq (g : LifeGame) (i j : Int) :
    activeCellRaw g i j = get_cell g i j := rfl

theorem get_cell_le_one (g : LifeGame) (h : WF g) (i j : Int) :
    get_cell g i j ≤ 1 := by
  rw [get_cell_char g h i j]
  split
  · exact cellAt_le_one g h _ _ _
  · omega

theorem check_le_one (g : LifeGame) (h : WF g) (i j : Int) :
    check_cell_neighbors g i j ≤ 1 := by
  have hc : activeCellRaw g i j ≤ 1 := by
    rw [activeCellRaw_eq]; exact get_cell_le_one g h i j
  simp only [check_cell_neighbors]
  split_ifs <;> omega

/-! The assembled behaviour of `set_grid` on a well-formed state. -/

theorem set_grid_spec (g : LifeGame) (h : WF g) (value : Option Nat) (idx : Nat)
    (hidx : idx < 2) (rnd : Nat → Nat → Fin 2) :
    FieldsEq g (set_grid g value idx rnd) ∧
    (∀ j, j ≠ idx → (set_grid g value idx rnd).grids.get? j = g.grids.get? j) ∧
    ∃ b', (set_grid g value idx rnd).grids.get? idx = some b' ∧
      b'.length = g.num_rows ∧
      (∀ row ∈ b', row.length = g.num_cols) ∧
      (∀ r c, r < g.num_rows → c < g.num_cols →
        ∃ row, b'.get? r = some row ∧ row.get? c = some (cellValue value rnd r c)) := by
  obtain ⟨b, hb, hblen, hbrows⟩ := wf_buf g h idx hidx
  obtain ⟨hfe, hje, b', hb', hb'len, hrows'⟩ :=
    fillOuter_spec value idx rnd g.num_rows g b hb (by omega)
  refine ⟨hfe, hje, b', hb', by omega, ?_, ?_⟩
  · intro row hrow
    obtain ⟨r, hr⟩ := List.mem_iff_get?.mp hrow
    rcases lt_or_le r g.num_rows with hlt | hle
    · obtain ⟨row0, hrow0, row1, hrow1, hlen1, _⟩ := (hrows' r).2 hlt
      rw [hr] at hrow1
      injection hrow1 with hrow1
      subst hrow1
      rw [hlen1]
      exact (hbrows row0 (List.get?_mem hrow0)).1
    · rw [(hrows' r).1 hle] at hr
      exact (hbrows row (List.get?_mem hr)).1
  · intro r c hr hc
    obtain ⟨row0, hrow0, row1, hrow1, hlen1, hcells1⟩ := (hrows' r).2 hr
    refine ⟨row1, hrow1, ?_⟩
    have hrl : row0.length = g.num_cols := (hbrows row0 (List.get?_mem hrow0)).1
    rw [hcells1 c, if_pos ⟨hc, by omega⟩]

/-! The assembled behaviour of `update_generation` on a well-formed
state: fields preserved, active index swapped, the formerly active
buffer untouched, and the new active buffer fully characterized. -/

theorem update_generation_spec (g : LifeGame) (h : WF g) :
    (update_generation g).num_rows = g.num_rows ∧
    (update_generation g).num_cols = g.num_cols ∧
    (update_generation g).active_grid = inactive_grid g ∧
    (update_generation g).paused = g.paused ∧
    (update_generation g).game_over = g.game_over ∧
    (update_generation g).grids.length = 2 ∧
    (update_generation g).grids.get? g.active_grid = g.grids.get? g.active_grid ∧
    ∃ b', (update_generation g).grids.get? (inactive_grid g) = some b' ∧
      b'.length = g.num_rows ∧
      (∀ row ∈ b', row.length = g.num_cols) ∧
      ∀ r c, cellAt (update_generation g) (inactive_grid g) r c =
        if r < g.num_rows - 1 ∧ c < g.num_cols - 1
        then check_cell_neighbors g (r : Int) (c : Int)
        else 0 := by
  obtain ⟨hfe1, hje1, b1, hb1, hb1len, hb1rows, hb1cells⟩ :=
    set_grid_spec g h (some 0) (inactive_grid g) (inactive_lt_two g) (fun _ _ => 0)
  set g1 := set_grid g (some 0) (inactive_grid g) (fun _ _ => 0) with hg1
  have ha1 : g1.active_grid = g.active_grid := hfe1.2.2.1
  have hact1 : g1.grids.get? g1.active_grid = g.grids.get? g.active_grid := by
    rw [ha1]
    exact hje1 g.active_grid (Ne.symm (inactive_ne_active g))
  have hinact1 : inactive_grid g1 = inactive_grid g := by
    unfold inactive_grid; rw [ha1]
  have hchk : ∀ r c : Int, check_cell_neighbors g1 r c = check_cell_neighbors g r c :=
    fun r c => check_congr g1 g hact1 r c
  have hrows1 : g1.num_rows = g.num_rows := hfe1.1
  have hcols1 : g1.num_cols = g.num_cols := hfe1.2.1
  obtain ⟨hst2, b2, hb2, hb2len, hrows2⟩ :=
    genOuter_spec g1 (g1.num_rows - 1) g1 b1 (stInv_refl g1) (by rw [hinact1]; exact hb1)
      (by omega)
  set g2 := genOuter g1 (g1.num_rows - 1) with hg2
  have ha2 : g2.active_grid = g.active_grid := hst2.1.2.2.1.trans ha1
  have hinact2 : inactive_grid g2 = inactive_grid g := by
    unfold inactive_grid; rw [ha2]
  have hupd : update_generation g = { g2 with active_grid := inactive_grid g2 } := rfl
  rw [hupd, hinact2]
  have hb2' : g2.grids.get? (inactive_grid g) = some b2 := by
    rw [← hinact1]; exact hb2
  refine ⟨hst2.1.1.trans hrows1, hst2.1.2.1.trans hcols1, rfl,
    hst2.1.2.2.2.1.trans hfe1.2.2.2.1, hst2.1.2.2.2.2.1.trans hfe1.2.2.2.2.1, ?_, ?_, b2, hb2', ?_, ?_, ?_⟩
  · rw [hst2.1.2.2.2.2.2, hfe1.2.2.2.2.2]
    exact h.1
  · show g2.grids.get? g.active_grid = _
    rw [← ha1, hst2.2, ha1]
    exact hje1 g.active_grid (Ne.symm (inactive_ne_active g))
  · omega
  · intro row hrow
    obtain ⟨r, hr⟩ := List.mem_iff_get?.mp hrow
    rcases lt_or_le r (g1.num_rows - 1) with hlt | hle
    · obtain ⟨row0, hrow0, row1, hrow1, hlen1, _⟩ := (hrows2 r).2 hlt
      rw [hr] at hrow1
      injection hrow1 with hrow1
      subst hrow1
      rw [hlen1]
      exact hb1rows row0 (List.get?_mem hrow0)
    · rw [(hrows2 r).1 hle] at hr
      exact hb1rows row (List.get?_mem hr)
  · intro r c
    show cellAt g2 (inactive_grid g) r c = _
    rcases lt_or_le r (g.num_rows - 1) with hrlt | hrle
    · obtain ⟨row0, hrow0, row1, hrow1, hlen1, hcells1⟩ := (hrows2 r).2 (by omega)
      have hrow0len : row0.length = g.num_cols := hb1rows row0 (List.get?_mem hrow0)
      rcases lt_or_le c (g.num_cols - 1) with hclt | hcle
      · have : row1.get? c = some (check_cell_neighbors g (r : Int) (c : Int)) := by
          rw [hcells1 c, if_pos ⟨by omega, by omega⟩, hchk]
        rw [cellAt_eq_of g2 _ r c b2 row1 _ hb2' hrow1 this, if_pos ⟨hrlt, hclt⟩]
      · rcases lt_or_le c g.num_cols with hclt2 | hcle2
        · have hc0 : row0.get? c = some 0 := by
            have hr2 : r < g.num_rows := by omega
            obtain ⟨rowz, hrowz, hcz⟩ := hb1cells r c hr2 hclt2
            rw [hrowz] at hrow0
            injection hrow0 with hrow0
            subst hrow0
            exact hcz
          have : row1.get? c = some 0 := by
            rw [hcells1 c, if_neg (by omega)]
            exact hc0
          rw [cellAt_eq_of g2 _ r c b2 row1 _ hb2' hrow1 this, if_neg (by omega)]
        · have : row1.get? c = none := by
            rw [hcells1 c, if_neg (by omega)]
            exact List.get?_len_le (by omega)
          rw [cellAt_zero_of_cell_none g2 _ r c b2 row1 hb2' hrow1 this,
            if_neg (by omega)]
    · rcases lt_or_le r g.num_rows with hrlt2 | hrle2
      · have hb2r : b2.get? r = b1.get? r := (hrows2 r).1 (by omega)
        obtain ⟨row0, hrow0⟩ := get_some_of_lt b1 r (by omega)
        have hrow0len : row0.length = g.num_cols := hb1rows row0 (List.get?_mem hrow0)
        rcases lt_or_le c g.num_cols with hclt | hcle
        · obtain ⟨rowz, hrowz, hcz⟩ := hb1cells r c hrlt2 hclt
          rw [hrowz] at hrow0
          injection hrow0 with hrow0
          subst hrow0
          rw [cellAt_eq_of g2 _ r c b2 rowz 0 hb2' (by rw [hb2r]; exact hrowz) hcz,
            if_neg (by omega)]
        · have : row0.get? c = none := List.get?_len_le (by omega)
          rw [cellAt_zero_of_cell_none g2 _ r c b2 row0 hb2'
            (by rw [hb2r]; exact hrow0) this, if_neg (by omega)]
      · have : b2.get? r = none := List.get?_len_le (by omega)
        rw [cellAt_zero_of_row_none g2 _ r c b2 hb2' this, if_neg (by omega)]

/-! Preservation of well-formedness by every grid-mutating operation. -/

theorem cellValue_le_one (value : Option Nat) (rnd : Nat → Nat → Fin 2) (r c : Nat)
    (hv : ∀ x, value = some x → x ≤ 1) : cellValue value rnd r c ≤ 1 := by
  unfold cellValue
  rcases value with _ | v
  · exact Nat.le_of_lt_succ (rnd r c).isLt
  · exact hv v rfl

theorem wf_set_grid (g : LifeGame) (h : WF g) (value : Option Nat) (idx : Nat)
    (hidx : idx < 2) (rnd : Nat → Nat → Fin 2)
    (hv : ∀ x, value = some x → x ≤ 1) : WF (set_grid g value idx rnd) := by
  obtain ⟨hfe, hje, b', hb', hb'len, hb'rows, hb'cells⟩ :=
    set_grid_spec g h value idx hidx rnd
  refine ⟨hfe.2.2.2.2.2.trans h.1, ?_, ?_⟩
  · rw [hfe.2.2.1]; exact h.2.1
  · intro buf hbuf
    obtain ⟨j, hj⟩ := List.mem_iff_get?.mp hbuf
    have hjlt : j < 2 := by
      have := get_some_lt hj
      rw [hfe.2.2.2.2.2, h.1] at this
      exact this
    rw [hfe.1, hfe.2.1]
    rcases eq_or_ne j idx with hji | hji
    · subst hji
      rw [hj] at hb'
      injection hb' with hb'
      subst hb'
      refine ⟨hb'len, fun row hrow => ⟨hb'rows row hrow, fun x hx => ?_⟩⟩
      obtain ⟨r, hr⟩ := List.mem_iff_get?.mp hrow
      obtain ⟨c, hc⟩ := List.mem_iff_get?.mp hx
      have hrlt : r < g.num_rows := by
        have := get_some_lt hr; omega
      have hclt : c < g.num_cols := by
        have := get_some_lt hc
        rw [hb'rows row hrow] at this
        exact this
      obtain ⟨row2, hrow2, hcell2⟩ := hb'cells r c hrlt hclt
      rw [hr] at hrow2
      injection hrow2 with hrow2
      subst hrow2
      rw [hc] at hcell2
      injection hcell2 with hcell2
      rw [hcell2]
      exact cellValue_le_one value rnd r c hv
    · rw [hje j hji] at hj
      exact h.2.2 buf (List.get?_mem hj)

theorem wf_update_generation (g : LifeGame) (h : WF g) :
    WF (update_generation g) := by
  obtain ⟨hR, hC, hA, _, _, hL, hAct, b', hb', hb'len, hb'rows, hb'cells⟩ :=
    update_generation_spec g h
  refine ⟨hL, ?_, ?_⟩
  · rw [hA]; exact inactive_lt_two g
  · intro buf hbuf
    obtain ⟨j, hj⟩ := List.mem_iff_get?.mp hbuf
    have hjlt : j < 2 := by
      have := get_some_lt hj; omega
    rw [hR, hC]
    rcases eq_or_ne j g.active_grid with hja | hja
    · subst hja
      rw [hAct] at hj
      exact h.2.2 buf (List.get?_mem hj)
    · have hji : j = inactive_grid g := by
        have := h.2.1
        unfold inactive_grid at *
        omega
      subst hji
      rw [hj] at hb'
      injection hb' with hb'
      subst hb'
      refine ⟨hb'len, fun row hrow => ⟨hb'rows row hrow, fun x hx => ?_⟩⟩
      obtain ⟨r, hr⟩ := List.mem_iff_get?.mp hrow
      obtain ⟨c, hc⟩ := List.mem_iff_get?.mp hx
      have hcell : cellAt (update_generation g) (inactive_grid g) r c = x :=
        cellAt_eq_of _ _ _ _ _ _ _ hj hr hc
      rw [hb'cells r c] at hcell
      rw [← hcell]
      split
      · exact check_le_one g h _ _
      · omega

theorem wf_mk_active_zero (g : LifeGame) (h : WF g) :
    WF { g with active_grid := 0 } := by
  obtain ⟨h1, _, h3⟩ := h
  exact ⟨h1, Nat.zero_lt_two, h3⟩

theorem wf_handle_key (g : LifeGame) (h : WF g) (ch : Char)
    (rnd : Nat → Nat → Fin 2) : WF (handle_key g ch rnd) := by
  unfold handle_key
  split_ifs
  · exact ⟨h.1, h.2.1, h.2.2⟩
  · refine wf_set_grid _ ?_ (some 0) _ (inactive_lt_two _) _
      (fun x hx => by injection hx with hx; omega)
    exact wf_set_grid _ (wf_mk_active_zero g h) none 0 Nat.zero_lt_two rnd
      (fun x hx => Option.noConfusion hx)
  · exact ⟨h.1, h.2.1, h.2.2⟩
  · exact h

theorem wf_initLifeGame (screen_width screen_height cell_size : Nat)
    (rnd : Nat → Nat → Fin 2) :
    WF (initLifeGame screen_width screen_height cell_size rnd) := by
  unfold initLifeGame
  refine wf_set_grid _ ?_ none 0 Nat.zero_lt_two rnd (fun x hx => Option.noConfusion hx)
  refine ⟨rfl, Nat.zero_lt_two, ?_⟩
  intro buf hbuf
  have hbuf' : buf = create_grid (screen_height / cell_size) (screen_width / cell_size) := by
    rcases List.mem_cons.mp hbuf with h1 | h1
    · exact h1
    · rcases List.mem_cons.mp h1 with h2 | h2
      · exact h2
      · exact absurd h2 (List.not_mem_nil buf)
  subst hbuf'
  unfold create_grid
  refine ⟨List.length_replicate _ _, fun row hrow => ?_⟩
  have hrow' : row = List.replicate (screen_width / cell_size) 0 :=
    List.eq_of_mem_replicate hrow
  subst hrow'
  refine ⟨List.length_replicate _ _, fun x hx => ?_⟩
  rw [List.eq_of_mem_replicate hx]
  exact Nat.zero_le 1

/-! Closed forms for `get_cell` on specific active-buffer contents. -/

theorem pyNth_mem {α : Type} {l : List α} {i : Int} {a : α}
    (h : pyNth l i = some a) : a ∈ l := by
  unfold pyNth at h
  split_ifs at h
  · exact List.get?_mem h
  · exact List.get?_mem h

theorem get_cell_all_dead (g : LifeGame)
    (hdead : ∀ row ∈ bufAt g g.active_grid, ∀ x ∈ row, x = 0)
    (i j : Int) : get_cell g i j = 0 := by
  unfold get_cell
  split
  · rfl
  · next buf hbuf =>
    have hb : bufAt g g.active_grid = buf := by unfold bufAt; rw [hbuf]; rfl
    rw [hb] at hdead
    split
    · rfl
    · next row hrow =>
      rcases hq : pyNth row j with _ | x
      · rfl
      · have hx : x = 0 := hdead row (pyNth_mem hrow) x (pyNth_mem hq)
        rw [Option.getD_some, hx]

theorem check_all_dead (g : LifeGame)
    (hdead : ∀ row ∈ bufAt g g.active_grid, ∀ x ∈ row, x = 0)
    (i j : Int) : check_cell_neighbors g i j = 0 := by
  have hz : ∀ a b : Int, get_cell g a b = 0 := get_cell_all_dead g hdead
  have hcur : activeCellRaw g i j = 0 := by rw [activeCellRaw_eq]; exact hz i j
  simp only [check_cell_neighbors, count_live_neighbors, hcur, hz]
  norm_num

/-- Closed form of `get_cell` when the active buffer holds exactly one
live cell at (r1, c1): the read yields 1 exactly when the (possibly
negatively wrapped) position resolves to (r1, c1). -/
theorem get_cell_single_eq (g : LifeGame) (h : WF g) (r1 c1 : Nat)
    (hr1 : r1 < g.num_rows) (hc1 : c1 < g.num_cols)
    (hcell : ∀ r, r < g.num_rows → ∀ c, c < g.num_cols →
      cellAt g g.active_grid r c = if r = r1 ∧ c = c1 then 1 else 0)
    (i j : Int) (hi1 : -1 ≤ i) (hi2 : i < (g.num_rows : Int))
    (hj1 : -1 ≤ j) (hj2 : j < (g.num_cols : Int)) :
    get_cell g i j =
      if (i = (r1 : Int) ∨ (i = -1 ∧ (r1 : Int) = (g.num_rows : Int) - 1)) ∧
         (j = (c1 : Int) ∨ (j = -1 ∧ (c1 : Int) = (g.num_cols : Int) - 1))
      then 1 else 0 := by
  have hR : 0 < g.num_rows := by omega
  have hC : 0 < g.num_cols := by omega
  rw [get_cell_char g h i j, if_pos ⟨by omega, by omega, by omega, by omega⟩]
  rw [hcell _ (wrapIdx_lt _ _ (by omega) hi2) _ (wrapIdx_lt _ _ (by omega) hj2)]
  have hwr : (wrapIdx g.num_rows i = r1 ∧ wrapIdx g.num_cols j = c1) ↔
      ((i = (r1 : Int) ∨ (i = -1 ∧ (r1 : Int) = (g.num_rows : Int) - 1)) ∧
       (j = (c1 : Int) ∨ (j = -1 ∧ (c1 : Int) = (g.num_cols : Int) - 1))) := by
    unfold wrapIdx
    split_ifs <;> omega
  by_cases hw : wrapIdx g.num_rows i = r1 ∧ wrapIdx g.num_cols j = c1
  · rw [if_pos hw, if_pos (hwr.mp hw)]
  · rw [if_neg hw, if_neg (fun hcon => hw (hwr.mpr hcon))]

/-- Closed form of `get_cell` when the active buffer holds an arbitrary
pattern `P` that stays away from the last row and last column: wrapped
reads (row or column −1) land on the dead last row/column, so the read
is just the pattern indicator at non-negative positions. -/
theorem get_cell_pattern_eq (g : LifeGame) (h : WF g) (P : Nat → Nat → Prop)
    [hdec : ∀ r c, Decidable (P r c)]
    (hP : ∀ r c, P r c → r + 1 < g.num_rows ∧ c + 1 < g.num_cols)
    (hcell : ∀ r, r < g.num_rows → ∀ c, c < g.num_cols →
      cellAt g g.active_grid r c = if P r c then 1 else 0)
    (i j : Int) (hi1 : -1 ≤ i) (hi2 : i < (g.num_rows : Int))
    (hj1 : -1 ≤ j) (hj2 : j < (g.num_cols : Int))
    (hR : 1 ≤ g.num_rows) (hC : 1 ≤ g.num_cols) :
    get_cell g i j = if 0 ≤ i ∧ 0 ≤ j ∧ P i.toNat j.toNat then 1 else 0 := by
  rw [get_cell_char g h i j, if_pos ⟨by omega, by omega, by omega, by omega⟩]
  rw [hcell _ (wrapIdx_lt _ _ (by omega) hi2) _ (wrapIdx_lt _ _ (by omega) hj2)]
  rcases le_or_lt 0 i with hi0 | hi0
  · rcases le_or_lt 0 j with hj0 | hj0
    · have hwi : wrapIdx g.num_rows i = i.toNat := by unfold wrapIdx; split <;> omega
      have hwj : wrapIdx g.num_cols j = j.toNat := by unfold wrapIdx; split <;> omega
      rw [hwi, hwj]
      by_cases hp : P i.toNat j.toNat
      · rw [if_pos hp, if_pos ⟨hi0, hj0, hp⟩]
      · rw [if_neg hp, if_neg (fun hcon => hp hcon.2.2)]
    · have hwj : wrapIdx g.num_cols j = g.num_cols - 1 := by
        unfold wrapIdx; split <;> omega
      rw [hwj]
      rw [if_neg (fun hp => by have := (hP _ _ hp).2; omega),
        if_neg (fun hcon => by have := hcon.2.1; omega)]
  · have hwi : wrapIdx g.num_rows i = g.num_rows - 1 := by
      unfold wrapIdx; split <;> omega
    rw [hwi]
    rw [if_neg (fun hp => by have := (hP _ _ hp).1; omega),
      if_neg (fun hcon => by have := hcon.1; omega)]


/-- Product form of `get_cell_single_eq`: the indicator of a conjunction
is the product of the indicators. -/
theorem get_cell_single_prod (g : LifeGame) (h : WF g) (r1 c1 : Nat)
    (hr1 : r1 < g.num_rows) (hc1 : c1 < g.num_cols)
    (hcell : ∀ r, r < g.num_rows → ∀ c, c < g.num_cols →
      cellAt g g.active_grid r c = if r = r1 ∧ c = c1 then 1 else 0)
    (i j : Int) (hi1 : -1 ≤ i) (hi2 : i < (g.num_rows : Int))
    (hj1 : -1 ≤ j) (hj2 : j < (g.num_cols : Int)) :
    get_cell g i j =
      (if i = (r1 : Int) ∨ (i = -1 ∧ (r1 : Int) = (g.num_rows : Int) - 1)
       then 1 else 0) *
      (if j = (c1 : Int) ∨ (j = -1 ∧ (c1 : Int) = (g.num_cols : Int) - 1)
       then 1 else 0) := by
  rw [get_cell_single_eq g h r1 c1 hr1 hc1 hcell i j hi1 hi2 hj1 hj2]
  split_ifs <;> first | tauto | norm_num

/-- The Moore-neighborhood sum of one live cell, seen through the
negative-index wrap, can reach 1, 2 or 4 but never 3: the three row
reads hit the live row 0, 1 or 2 times (twice only through the wrap),
likewise the column reads, and the sum is the product of the two
multiplicities minus the excluded centre. -/
theorem neighbor_sum_ne_three (A1 A2 A3 B1 B2 B3 : Prop)
    [Decidable A1] [Decidable A2] [Decidable A3]
    [Decidable B1] [Decidable B2] [Decidable B3]
    (hA : A2 → ¬A1 ∧ ¬A3) (hB : B2 → ¬B1 ∧ ¬B3) (hAB : ¬(A2 ∧ B2)) :
    (if A1 then 1 else 0) * (if B1 then 1 else 0) +
    (if A1 then 1 else 0) * (if B2 then 1 else 0) +
    (if A1 then 1 else 0) * (if B3 then 1 else 0) +
    (if A2 then 1 else 0) * (if B1 then 1 else 0) +
    (if A2 then 1 else 0) * (if B3 then 1 else 0) +
    (if A3 then 1 else 0) * (if B1 then 1 else 0) +
    (if A3 then 1 else 0) * (if B3 then 1 else 0) +
    (if A3 then 1 else 0) * (if B2 then 1 else 0) ≠ (3 : Nat) := by
  split_ifs <;> first | tauto | norm_num

/-- With exactly one live cell in the active buffer, every cell computed
by the rule for the next generation is dead: the lone cell has no live
neighbor, and no dead cell ever sees three live neighbors (wrapped
reads can double-count the lone cell, but only to 1, 2 or 4, never 3). -/
theorem check_single_cell (g : LifeGame) (h : WF g) (r1 c1 : Nat)
    (hr1 : r1 < g.num_rows) (hc1 : c1 < g.num_cols)
    (hcell : ∀ r, r < g.num_rows → ∀ c, c < g.num_cols →
      cellAt g g.active_grid r c = if r = r1 ∧ c = c1 then 1 else 0)
    (r c : Nat) (hr : r < g.num_rows - 1) (hc : c < g.num_cols - 1) :
    check_cell_neighbors g (r : Int) (c : Int) = 0 := by
  have hR2 : 2 ≤ g.num_rows := by omega
  have hC2 : 2 ≤ g.num_cols := by omega
  have hcur0 := get_cell_single_eq g h r1 c1 hr1 hc1 hcell (r : Int) (c : Int)
    (by omega) (by omega) (by omega) (by omega)
  simp only [check_cell_neighbors, count_live_neighbors, activeCellRaw_eq]
  by_cases hcen : r = r1 ∧ c = c1
  · have hE := get_cell_single_eq g h r1 c1 hr1 hc1 hcell
    rw [hE ((r : Int) - 1) ((c : Int) - 1) (by omega) (by omega) (by omega) (by omega),
        hE ((r : Int) - 1) (c : Int) (by omega) (by omega) (by omega) (by omega),
        hE ((r : Int) - 1) ((c : Int) + 1) (by omega) (by omega) (by omega) (by omega),
        hE (r : Int) ((c : Int) - 1) (by omega) (by omega) (by omega) (by omega),
        hE (r : Int) ((c : Int) + 1) (by omega) (by omega) (by omega) (by omega),
        hE ((r : Int) + 1) ((c : Int) - 1) (by omega) (by omega) (by omega) (by omega),
        hE ((r : Int) + 1) ((c : Int) + 1) (by omega) (by omega) (by omega) (by omega),
        hE ((r : Int) + 1) (c : Int) (by omega) (by omega) (by omega) (by omega),
        hcur0]
    rw [if_neg (by omega : ¬(((r : Int) - 1 = (r1 : Int) ∨ ((r : Int) - 1 = -1 ∧ (r1 : Int) = (g.num_rows : Int) - 1)) ∧ ((c : Int) - 1 = (c1 : Int) ∨ ((c : Int) - 1 = -1 ∧ (c1 : Int) = (g.num_cols : Int) - 1)))),
        if_neg (by omega : ¬(((r : Int) - 1 = (r1 : Int) ∨ ((r : Int) - 1 = -1 ∧ (r1 : Int) = (g.num_rows : Int) - 1)) ∧ ((c : Int) = (c1 : Int) ∨ ((c : Int) = -1 ∧ (c1 : Int) = (g.num_cols : Int) - 1)))),
        if_neg (by omega : ¬(((r : Int) - 1 = (r1 : Int) ∨ ((r : Int) - 1 = -1 ∧ (r1 : Int) = (g.num_rows : Int) - 1)) ∧ ((c : Int) + 1 = (c1 : Int) ∨ ((c : Int) + 1 = -1 ∧ (c1 : Int) = (g.num_cols : Int) - 1)))),
        if_neg (by omega : ¬(((r : Int) = (r1 : Int) ∨ ((r : Int) = -1 ∧ (r1 : Int) = (g.num_rows : Int) - 1)) ∧ ((c : Int) - 1 = (c1 : Int) ∨ ((c : Int) - 1 = -1 ∧ (c1 : Int) = (g.num_cols : Int) - 1)))),
        if_neg (by omega : ¬(((r : Int) = (r1 : Int) ∨ ((r : Int) = -1 ∧ (r1 : Int) = (g.num_rows : Int) - 1)) ∧ ((c : Int) + 1 = (c1 : Int) ∨ ((c : Int) + 1 = -1 ∧ (c1 : Int) = (g.num_cols : Int) - 1)))),
        if_neg (by omega : ¬(((r : Int) + 1 = (r1 : Int) ∨ ((r : Int) + 1 = -1 ∧ (r1 : Int) = (g.num_rows : Int) - 1)) ∧ ((c : Int) - 1 = (c1 : Int) ∨ ((c : Int) - 1 = -1 ∧ (c1 : Int) = (g.num_cols : Int) - 1)))),
        if_neg (by omega : ¬(((r : Int) + 1 = (r1 : Int) ∨ ((r : Int) + 1 = -1 ∧ (r1 : Int) = (g.num_rows : Int) - 1)) ∧ ((c : Int) + 1 = (c1 : Int) ∨ ((c : Int) + 1 = -1 ∧ (c1 : Int) = (g.num_cols : Int) - 1)))),
        if_neg (by omega : ¬(((r : Int) + 1 = (r1 : Int) ∨ ((r : Int) + 1 = -1 ∧ (r1 : Int) = (g.num_rows : Int) - 1)) ∧ ((c : Int) = (c1 : Int) ∨ ((c : Int) = -1 ∧ (c1 : Int) = (g.num_cols : Int) - 1)))),
        if_pos (by omega : ((r : Int) = (r1 : Int) ∨ ((r : Int) = -1 ∧ (r1 : Int) = (g.num_rows : Int) - 1)) ∧ ((c : Int) = (c1 : Int) ∨ ((c : Int) = -1 ∧ (c1 : Int) = (g.num_cols : Int) - 1)))]
    norm_num
  · have hP := get_cell_single_prod g h r1 c1 hr1 hc1 hcell
    rw [hP ((r : Int) - 1) ((c : Int) - 1) (by omega) (by omega) (by omega) (by omega),
        hP ((r : Int) - 1) (c : Int) (by omega) (by omega) (by omega) (by omega),
        hP ((r : Int) - 1) ((c : Int) + 1) (by omega) (by omega) (by omega) (by omega),
        hP (r : Int) ((c : Int) - 1) (by omega) (by omega) (by omega) (by omega),
        hP (r : Int) ((c : Int) + 1) (by omega) (by omega) (by omega) (by omega),
        hP ((r : Int) + 1) ((c : Int) - 1) (by omega) (by omega) (by omega) (by omega),
        hP ((r : Int) + 1) ((c : Int) + 1) (by omega) (by omega) (by omega) (by omega),
        hP ((r : Int) + 1) (c : Int) (by omega) (by omega) (by omega) (by omega),
        hcur0]
    have hsum := neighbor_sum_ne_three
      ((r : Int) - 1 = (r1 : Int) ∨ ((r : Int) - 1 = -1 ∧ (r1 : Int) = (g.num_rows : Int) - 1))
      ((r : Int) = (r1 : Int) ∨ ((r : Int) = -1 ∧ (r1 : Int) = (g.num_rows : Int) - 1))
      ((r : Int) + 1 = (r1 : Int) ∨ ((r : Int) + 1 = -1 ∧ (r1 : Int) = (g.num_rows : Int) - 1))
      ((c : Int) - 1 = (c1 : Int) ∨ ((c : Int) - 1 = -1 ∧ (c1 : Int) = (g.num_cols : Int) - 1))
      ((c : Int) = (c1 : Int) ∨ ((c : Int) = -1 ∧ (c1 : Int) = (g.num_cols : Int) - 1))
      ((c : Int) + 1 = (c1 : Int) ∨ ((c : Int) + 1 = -1 ∧ (c1 : Int) = (g.num_cols : Int) - 1))
      (by omega) (by omega) (by omega)
    rw [if_neg (by omega : ¬(((r : Int) = (r1 : Int) ∨ ((r : Int) = -1 ∧ (r1 : Int) = (g.num_rows : Int) - 1)) ∧ ((c : Int) = (c1 : Int) ∨ ((c : Int) = -1 ∧ (c1 : Int) = (g.num_cols : Int) - 1))))]
    rw [if_neg (by norm_num : ¬(0 : Nat) = 1), if_pos rfl, if_neg hsum]

theorem get_cell_blinkV (g : LifeGame) (h : WF g) (rc cc : Nat)
    (hm1 : 2 ≤ rc) (hm2 : rc + 4 ≤ g.num_rows)
    (hm3 : 2 ≤ cc) (hm4 : cc + 4 ≤ g.num_cols)
    (hcell : ∀ r, r < g.num_rows → ∀ c, c < g.num_cols →
      cellAt g g.active_grid r c = if blinkerV rc cc r c then 1 else 0)
    (i j : Int) (hi1 : -1 ≤ i) (hi2 : i < (g.num_rows : Int))
    (hj1 : -1 ≤ j) (hj2 : j < (g.num_cols : Int)) :
    get_cell g i j =
      (if i = (rc : Int) - 1 ∨ i = (rc : Int) ∨ i = (rc : Int) + 1
       then 1 else 0) *
      (if j = (cc : Int) then 1 else 0) := by
  rw [get_cell_pattern_eq g h (blinkerV rc cc)
    (fun r c hp => by unfold blinkerV at hp; omega) hcell i j hi1 hi2 hj1 hj2
    (by omega) (by omega)]
  have hiff : (0 ≤ i ∧ 0 ≤ j ∧ blinkerV rc cc i.toNat j.toNat) ↔
      ((i = (rc : Int) - 1 ∨ i = (rc : Int) ∨ i = (rc : Int) + 1) ∧ j = (cc : Int)) := by
    unfold blinkerV; omega
  simp only [hiff]
  split_ifs <;> first | tauto | norm_num

theorem get_cell_blinkH (g : LifeGame) (h : WF g) (rc cc : Nat)
    (hm1 : 2 ≤ rc) (hm2 : rc + 4 ≤ g.num_rows)
    (hm3 : 2 ≤ cc) (hm4 : cc + 4 ≤ g.num_cols)
    (hcell : ∀ r, r < g.num_rows → ∀ c, c < g.num_cols →
      cellAt g g.active_grid r c = if blinkerH rc cc r c then 1 else 0)
    (i j : Int) (hi1 : -1 ≤ i) (hi2 : i < (g.num_rows : Int))
    (hj1 : -1 ≤ j) (hj2 : j < (g.num_cols : Int)) :
    get_cell g i j =
      (if i = (rc : Int) then 1 else 0) *
      (if j = (cc : Int) - 1 ∨ j = (cc : Int) ∨ j = (cc : Int) + 1
       then 1 else 0) := by
  rw [get_cell_pattern_eq g h (blinkerH rc cc)
    (fun r c hp => by unfold blinkerH at hp; omega) hcell i j hi1 hi2 hj1 hj2
    (by omega) (by omega)]
  have hiff : (0 ≤ i ∧ 0 ≤ j ∧ blinkerH rc cc i.toNat j.toNat) ↔
      (i = (rc : Int) ∧ (j = (cc : Int) - 1 ∨ j = (cc : Int) ∨ j = (cc : Int) + 1)) := by
    unfold blinkerH; omega
  simp only [hiff]
  split_ifs <;> first | tauto | norm_num

/-- Flattened form of the life/death rule: for a binary current cell,
`check_cell_neighbors` is survival (count in [2,3]) for a live cell and
birth (count = 3) for a dead one. -/
theorem check_eval (g : LifeGame) (i j : Int) (n cur : Nat)
    (hn : count_live_neighbors g i j = n)
    (hcur : activeCellRaw g i j = cur) (hcur1 : cur ≤ 1) :
    check_cell_neighbors g i j =
      if cur = 1 then (if 2 ≤ n ∧ n ≤ 3 then 1 else 0)
      else (if n = 3 then 1 else 0) := by
  simp only [check_cell_neighbors, hn, hcur]
  split_ifs <;> omega

theorem check_blinkV (g : LifeGame) (h : WF g) (rc cc : Nat)
    (hm1 : 2 ≤ rc) (hm2 : rc + 4 ≤ g.num_rows)
    (hm3 : 2 ≤ cc) (hm4 : cc + 4 ≤ g.num_cols)
    (hcell : ∀ r, r < g.num_rows → ∀ c, c < g.num_cols →
      cellAt g g.active_grid r c = if blinkerV rc cc r c then 1 else 0)
    (r c : Nat) (hr : r < g.num_rows - 1) (hc : c < g.num_cols - 1) :
    check_cell_neighbors g (r : Int) (c : Int) =
      if blinkerH rc cc r c then 1 else 0 := by
  have hE := get_cell_blinkV g h rc cc hm1 hm2 hm3 hm4 hcell
  have hb : activeCellRaw g (r : Int) (c : Int) ≤ 1 := by
    rw [activeCellRaw_eq]; exact get_cell_le_one g h _ _
  rw [check_eval g (r : Int) (c : Int) (count_live_neighbors g (r : Int) (c : Int))
    (activeCellRaw g (r : Int) (c : Int)) rfl rfl hb]
  simp only [count_live_neighbors, activeCellRaw_eq,
    hE ((r : Int) - 1) ((c : Int) - 1) (by omega) (by omega) (by omega) (by omega),
    hE ((r : Int) - 1) (c : Int) (by omega) (by omega) (by omega) (by omega),
    hE ((r : Int) - 1) ((c : Int) + 1) (by omega) (by omega) (by omega) (by omega),
    hE (r : Int) ((c : Int) - 1) (by omega) (by omega) (by omega) (by omega),
    hE (r : Int) ((c : Int) + 1) (by omega) (by omega) (by omega) (by omega),
    hE ((r : Int) + 1) ((c : Int) - 1) (by omega) (by omega) (by omega) (by omega),
    hE ((r : Int) + 1) ((c : Int) + 1) (by omega) (by omega) (by omega) (by omega),
    hE ((r : Int) + 1) (c : Int) (by omega) (by omega) (by omega) (by omega),
    hE (r : Int) (c : Int) (by omega) (by omega) (by omega) (by omega),
    blinkerH]
  by_cases hA1 : (r : Int) - 1 = (rc : Int) - 1 ∨ (r : Int) - 1 = (rc : Int) ∨ (r : Int) - 1 = (rc : Int) + 1 <;>
  by_cases hA2 : (r : Int) = (rc : Int) - 1 ∨ (r : Int) = (rc : Int) ∨ (r : Int) = (rc : Int) + 1 <;>
  by_cases hA3 : (r : Int) + 1 = (rc : Int) - 1 ∨ (r : Int) + 1 = (rc : Int) ∨ (r : Int) + 1 = (rc : Int) + 1 <;>
  by_cases hB1 : (c : Int) - 1 = (cc : Int) <;>
  by_cases hB2 : (c : Int) = (cc : Int) <;>
  by_cases hB3 : (c : Int) + 1 = (cc : Int) <;>
    simp only [hA1, hA2, hA3, hB1, hB2, hB3, if_true, if_false] <;>
    first
      | (split_ifs <;> first | omega | tauto)
      | omega
      | tauto

theorem check_blinkH (g : LifeGame) (h : WF g) (rc cc : Nat)
    (hm1 : 2 ≤ rc) (hm2 : rc + 4 ≤ g.num_rows)
    (hm3 : 2 ≤ cc) (hm4 : cc + 4 ≤ g.num_cols)
    (hcell : ∀ r, r < g.num_rows → ∀ c, c < g.num_cols →
      cellAt g g.active_grid r c = if blinkerH rc cc r c then 1 else 0)
    (r c : Nat) (hr : r < g.num_rows - 1) (hc : c < g.num_cols - 1) :
    check_cell_neighbors g (r : Int) (c : Int) =
      if blinkerV rc cc r c then 1 else 0 := by
  have hE := get_cell_blinkH g h rc cc hm1 hm2 hm3 hm4 hcell
  have hb : activeCellRaw g (r : Int) (c : Int) ≤ 1 := by
    rw [activeCellRaw_eq]; exact get_cell_le_one g h _ _
  rw [check_eval g (r : Int) (c : Int) (count_live_neighbors g (r : Int) (c : Int))
    (activeCellRaw g (r : Int) (c : Int)) rfl rfl hb]
  simp only [count_live_neighbors, activeCellRaw_eq,
    hE ((r : Int) - 1) ((c : Int) - 1) (by omega) (by omega) (by omega) (by omega),
    hE ((r : Int) - 1) (c : Int) (by omega) (by omega) (by omega) (by omega),
    hE ((r : Int) - 1) ((c : Int) + 1) (by omega) (by omega) (by omega) (by omega),
    hE (r : Int) ((c : Int) - 1) (by omega) (by omega) (by omega) (by omega),
    hE (r : Int) ((c : Int) + 1) (by omega) (by omega) (by omega) (by omega),
    hE ((r : Int) + 1) ((c : Int) - 1) (by omega) (by omega) (by omega) (by omega),
    hE ((r : Int) + 1) ((c : Int) + 1) (by omega) (by omega) (by omega) (by omega),
    hE ((r : Int) + 1) (c : Int) (by omega) (by omega) (by omega) (by omega),
    hE (r : Int) (c : Int) (by omega) (by omega) (by omega) (by omega),
    blinkerV]
  by_cases hA1 : (r : Int) - 1 = (rc : Int) <;>
  by_cases hA2 : (r : Int) = (rc : Int) <;>
  by_cases hA3 : (r : Int) + 1 = (rc : Int) <;>
  by_cases hB1 : (c : Int) - 1 = (cc : Int) - 1 ∨ (c : Int) - 1 = (cc : Int) ∨ (c : Int) - 1 = (cc : Int) + 1 <;>
  by_cases hB2 : (c : Int) = (cc : Int) - 1 ∨ (c : Int) = (cc : Int) ∨ (c : Int) = (cc : Int) + 1 <;>
  by_cases hB3 : (c : Int) + 1 = (cc : Int) - 1 ∨ (c : Int) + 1 = (cc : Int) ∨ (c : Int) + 1 = (cc : Int) + 1 <;>
    simp only [hA1, hA2, hA3, hB1, hB2, hB3, if_true, if_false] <;>
    first
      | (split_ifs <;> first | omega | tauto)
      | omega
      | tauto

/-! One generation step of each blinker orientation, at the state level. -/

theorem blinkerV_step (g : LifeGame) (h : WF g) (rc cc : Nat)
    (hm1 : 2 ≤ rc) (hm2 : rc + 4 ≤ g.num_rows)
    (hm3 : 2 ≤ cc) (hm4 : cc + 4 ≤ g.num_cols)
    (hcell : ∀ r, r < g.num_rows → ∀ c, c < g.num_cols →
      cellAt g g.active_grid r c = if blinkerV rc cc r c then 1 else 0) :
    WF (update_generation g) ∧
    (update_generation g).num_rows = g.num_rows ∧
    (update_generation g).num_cols = g.num_cols ∧
    ∀ r, r < g.num_rows → ∀ c, c < g.num_cols →
      cellAt (update_generation g) (update_generation g).active_grid r c =
        if blinkerH rc cc r c then 1 else 0 := by
  obtain ⟨hR, hC, hA, _, _, hL, hAct, b', hb', hb'len, hb'rows, hb'cells⟩ :=
    update_generation_spec g h
  refine ⟨wf_update_generation g h, hR, hC, fun r hrR c hcC => ?_⟩
  rw [hA, hb'cells r c]
  by_cases hin : r < g.num_rows - 1 ∧ c < g.num_cols - 1
  · rw [if_pos hin, check_blinkV g h rc cc hm1 hm2 hm3 hm4 hcell r c hin.1 hin.2]
  · have hnb : ¬ blinkerH rc cc r c := by unfold blinkerH; omega
    rw [if_neg hin, if_neg hnb]

theorem blinkerH_step (g : LifeGame) (h : WF g) (rc cc : Nat)
    (hm1 : 2 ≤ rc) (hm2 : rc + 4 ≤ g.num_rows)
    (hm3 : 2 ≤ cc) (hm4 : cc + 4 ≤ g.num_cols)
    (hcell : ∀ r, r < g.num_rows → ∀ c, c < g.num_cols →
      cellAt g g.active_grid r c = if blinkerH rc cc r c then 1 else 0) :
    WF (update_generation g) ∧
    (update_generation g).num_rows = g.num_rows ∧
    (update_generation g).num_cols = g.num_cols ∧
    ∀ r, r < g.num_rows → ∀ c, c < g.num_cols →
      cellAt (update_generation g) (update_generation g).active_grid r c =
        if blinkerV rc cc r c then 1 else 0 := by
  obtain ⟨hR, hC, hA, _, _, hL, hAct, b', hb', hb'len, hb'rows, hb'cells⟩ :=
    update_generation_spec g h
  refine ⟨wf_update_generation g h, hR, hC, fun r hrR c hcC => ?_⟩
  rw [hA, hb'cells r c]
  by_cases hin : r < g.num_rows - 1 ∧ c < g.num_cols - 1
  · rw [if_pos hin, check_blinkH g h rc cc hm1 hm2 hm3 hm4 hcell r c hin.1 hin.2]
  · have hnb : ¬ blinkerV rc cc r c := by unfold blinkerV; omega
    rw [if_neg hin, if_neg hnb]

/-- Every reachable state is well-formed. -/
theorem reachable_wf (g : LifeGame) (h : Reachable g) : WF g := by
  induction h with
  | init w hh cs rnd => exact wf_initLifeGame w hh cs rnd
  | fill g0 v idx rnd hre hv hidx ih => exact wf_set_grid g0 ih v idx hidx rnd hv
  | advance g0 hre ih => exact wf_update_generation g0 ih
  | events g0 ch rnd hre ih => exact wf_handle_key g0 ih ch rnd

/-! The claims. -/

/-- C1: the claim is violated by the code. It states that `get_cell`
returns dead (0) at every (row, col) outside
[0,num_rows)×[0,num_cols), including negative indices, with no
wraparound. On the well-formed 2×2 state `gWrap`, whose active buffer's
last row holds a live cell at column 0, the read `get_cell (-1) 0` is
outside the grid yet returns 1: Python's negative indexing wraps
`grids[active][-1]` to the last row, and the bare `try/except` does not
catch it. The value returned is exactly the last row's cell (1,0). -/
theorem claim_C1_negative_index_wraps :
    WF gWrap ∧ get_cell gWrap (-1) 0 = 1 ∧ cellAt gWrap 0 1 0 = 1 := by
  decide

/-- C2: one `advance()` on a reachable state swaps the active index,
writes `next_state` (computed from the pre-update active buffer) into
every cell with row < num_rows−1 and col < num_cols−1 of the new active
buffer, and leaves that buffer's last row and last column entirely dead
(they keep the all-dead clear). -/
theorem claim_C2_update_boundary (g : LifeGame) (h : Reachable g) :
    (update_generation g).active_grid = inactive_grid g ∧
    (∀ r, r < g.num_rows - 1 → ∀ c, c < g.num_cols - 1 →
      cellAt (update_generation g) (update_generation g).active_grid r c =
        check_cell_neighbors g (r : Int) (c : Int)) ∧
    (∀ r, r < g.num_rows → ∀ c, c < g.num_cols →
      (r = g.num_rows - 1 ∨ c = g.num_cols - 1) →
      cellAt (update_generation g) (update_generation g).active_grid r c = 0) := by
  have hw := reachable_wf g h
  obtain ⟨_, _, hA, _, _, _, _, b', hb', _, _, hb'cells⟩ := update_generation_spec g hw
  refine ⟨hA, fun r hr c hc => ?_, fun r hr c hc hbd => ?_⟩
  · rw [hA, hb'cells r c, if_pos ⟨hr, hc⟩]
  · rw [hA, hb'cells r c, if_neg (by omega)]

theorem claim_C2_witness :
    (update_generation (initLifeGame 20 20 10 rnd0)).active_grid =
      inactive_grid (initLifeGame 20 20 10 rnd0) ∧
    cellAt (update_generation (initLifeGame 20 20 10 rnd0))
      (update_generation (initLifeGame 20 20 10 rnd0)).active_grid 1 0 = 0 :=
  ⟨(claim_C2_update_boundary _ (Reachable.init 20 20 10 rnd0)).1,
   (claim_C2_update_boundary _ (Reachable.init 20 20 10 rnd0)).2.2 1 (by decide) 0
     (by decide) (Or.inl (by decide))⟩

/-- C3: `check_cell_neighbors` implements the B3/S23 rule with respect
to the computed neighbor count: a live cell dies exactly when the count
is above 3 or below 2 and survives on 2 or 3; a dead cell is born
exactly on count 3. -/
theorem claim_C3_rule (g : LifeGame) (row col : Int) :
    (get_cell g row col = 1 →
      check_cell_neighbors g row col =
        if 3 < count_live_neighbors g row col ∨ count_live_neighbors g row col < 2
        then 0 else 1) ∧
    (get_cell g row col = 0 →
      check_cell_neighbors g row col =
        if count_live_neighbors g row col = 3 then 1 else 0) := by
  have hcur : activeCellRaw g row col = get_cell g row col := activeCellRaw_eq g row col
  constructor <;> intro h1 <;>
    simp only [check_cell_neighbors, hcur, h1] <;> split_ifs <;>
    first | omega | tauto

theorem claim_C3_witness :
    get_cell gCorner 0 0 = 1 ∧
    check_cell_neighbors gCorner 0 0 =
      if 3 < count_live_neighbors gCorner 0 0 ∨ count_live_neighbors gCorner 0 0 < 2
      then 0 else 1 :=
  ⟨by decide, (claim_C3_rule gCorner 0 0).1 (by decide)⟩

/-- C4: the claim is violated by the code. `count_live_neighbors` does
not treat every position outside the grid as dead: on the well-formed
3×3 state `gMoore` (single live cell at (2,1)), the count at (0,0) is 1
although all of (0,0)'s in-grid Moore neighbors are dead — the spec's
own bounds-checked Moore sum (`mooreCountSpec`) is 0 there. The row −1
read wraps to the last row and counts its live cell. -/
theorem claim_C4_wrapped_neighbor_count :
    WF gMoore ∧ count_live_neighbors gMoore 0 0 = 1 ∧ mooreCountSpec gMoore 0 0 = 0 := by
  decide

/-- C5: advancing a state whose active buffer is entirely dead yields a
state whose (new) active buffer is entirely dead: the empty grid is a
fixed point of `advance()`. -/
theorem claim_C5_all_dead_fixed_point (g : LifeGame) (h : WF g)
    (hdead : ∀ row ∈ bufAt g g.active_grid, ∀ x ∈ row, x = 0) :
    ∀ r c, cellAt (update_generation g) (update_generation g).active_grid r c = 0 := by
  obtain ⟨_, _, hA, _, _, _, _, b', hb', _, _, hb'cells⟩ := update_generation_spec g h
  intro r c
  rw [hA, hb'cells r c]
  split
  · exact check_all_dead g hdead _ _
  · rfl

theorem claim_C5_witness :
    cellAt (update_generation gDead) (update_generation gDead).active_grid 0 0 = 0 :=
  claim_C5_all_dead_fixed_point gDead (by decide) (by decide) 0 0

/-- C6: a 3-cell blinker (vertical or horizontal) whose cells and halo
stay strictly inside the updated region and away from the wrap-read
rows/columns returns to its original pattern after two `advance()`
calls. -/
theorem claim_C6_blinker_period_two (g : LifeGame) (h : WF g) (rc cc : Nat)
    (hm1 : 2 ≤ rc) (hm2 : rc + 4 ≤ g.num_rows)
    (hm3 : 2 ≤ cc) (hm4 : cc + 4 ≤ g.num_cols)
    (hpat : (∀ r, r < g.num_rows → ∀ c, c < g.num_cols →
        cellAt g g.active_grid r c = if blinkerV rc cc r c then 1 else 0) ∨
      (∀ r, r < g.num_rows → ∀ c, c < g.num_cols →
        cellAt g g.active_grid r c = if blinkerH rc cc r c then 1 else 0)) :
    ∀ r, r < g.num_rows → ∀ c, c < g.num_cols →
      cellAt (update_generation (update_generation g))
        (update_generation (update_generation g)).active_grid r c =
      cellAt g g.active_grid r c := by
  rcases hpat with hV | hH
  · obtain ⟨hw1, hR1, hC1, hcells1⟩ := blinkerV_step g h rc cc hm1 hm2 hm3 hm4 hV
    obtain ⟨hw2, hR2, hC2, hcells2⟩ := blinkerH_step (update_generation g) hw1 rc cc
      hm1 (by omega) hm3 (by omega)
      (fun r hr c hc => hcells1 r (by omega) c (by omega))
    intro r hrR c hcC
    rw [hcells2 r (by omega) c (by omega), hV r hrR c hcC]
  · obtain ⟨hw1, hR1, hC1, hcells1⟩ := blinkerH_step g h rc cc hm1 hm2 hm3 hm4 hH
    obtain ⟨hw2, hR2, hC2, hcells2⟩ := blinkerV_step (update_generation g) hw1 rc cc
      hm1 (by omega) hm3 (by omega)
      (fun r hr c hc => hcells1 r (by omega) c (by omega))
    intro r hrR c hcC
    rw [hcells2 r (by omega) c (by omega), hH r hrR c hcC]

theorem claim_C6_witness :
    cellAt (update_generation (update_generation gBlink))
      (update_generation (update_generation gBlink)).active_grid 2 3 =
    cellAt gBlink gBlink.active_grid 2 3 :=
  claim_C6_blinker_period_two gBlink (by decide) 3 3 (by decide) (by decide)
    (by decide) (by decide) (Or.inl (by decide)) 2 (by decide) 3 (by decide)

/-- C7: a state whose active buffer holds exactly one live cell
advances to a state whose new active buffer is entirely dead: the lone
cell dies of underpopulation and no dead cell is born. -/
theorem claim_C7_lone_cell_dies (g : LifeGame) (h : WF g) (r1 c1 : Nat)
    (hr1 : r1 < g.num_rows) (hc1 : c1 < g.num_cols)
    (hcell : ∀ r, r < g.num_rows → ∀ c, c < g.num_cols →
      cellAt g g.active_grid r c = if r = r1 ∧ c = c1 then 1 else 0) :
    ∀ r c, cellAt (update_generation g) (update_generation g).active_grid r c = 0 := by
  obtain ⟨_, _, hA, _, _, _, _, b', hb', _, _, hb'cells⟩ := update_generation_spec g h
  intro r c
  rw [hA, hb'cells r c]
  split
  · next hin => exact check_single_cell g h r1 c1 hr1 hc1 hcell r c hin.1 hin.2
  · rfl

theorem claim_C7_witness :
    cellAt (update_generation gLone) (update_generation gLone).active_grid 1 1 = 0 :=
  claim_C7_lone_cell_dies gLone (by decide) 1 1 (by decide) (by decide) (by decide) 1 1

/-- C8: the `r` (randomize) command on a reachable state sets the
active index to 0, fills every cell of buffer 0 with the fresh random
draw for that cell (a value in {0,1}), and clears every cell of
buffer 1 — the inactive buffer — to dead. -/
theorem claim_C8_randomize (g : LifeGame) (h : Reachable g) (rnd : Nat → Nat → Fin 2) :
    (handle_key g 'r' rnd).active_grid = 0 ∧
    (∀ r, r < g.num_rows → ∀ c, c < g.num_cols →
      cellAt (handle_key g 'r' rnd) 0 r c = (rnd r c).val) ∧
    (∀ r c, cellAt (handle_key g 'r' rnd) 1 r c = 0) := by
  have hw := reachable_wf g h
  have hwf1 : WF { g with active_grid := 0 } := wf_mk_active_zero g hw
  obtain ⟨hfe2, hje2, b2, hb2, hb2len, hb2rows, hb2cells⟩ :=
    set_grid_spec { g with active_grid := 0 } hwf1 none 0 Nat.zero_lt_two rnd
  set g2 := set_grid { g with active_grid := 0 } none 0 rnd with hg2
  have hact2 : g2.active_grid = 0 := hfe2.2.2.1
  have hinact2 : inactive_grid g2 = 1 := by unfold inactive_grid; rw [hact2]
  have hwf2 : WF g2 :=
    wf_set_grid { g with active_grid := 0 } hwf1 none 0 Nat.zero_lt_two rnd
      (fun x hx => Option.noConfusion hx)
  obtain ⟨hfe3, hje3, b3, hb3, hb3len, hb3rows, hb3cells⟩ :=
    set_grid_spec g2 hwf2 (some 0) (inactive_grid g2) (inactive_lt_two g2) (fun _ _ => 0)
  set g3 := set_grid g2 (some 0) (inactive_grid g2) (fun _ _ => 0) with hg3
  have hkey : handle_key g 'r' rnd = g3 := by
    unfold handle_key
    rw [if_neg (by decide), if_pos rfl]
  rw [hkey]
  have hRg : g2.num_rows = g.num_rows := hfe2.1
  have hCg : g2.num_cols = g.num_cols := hfe2.2.1
  refine ⟨hfe3.2.2.1.trans hact2, fun r hr c hc => ?_, fun r c => ?_⟩
  · have hbuf0 : g3.grids.get? 0 = some b2 := by
      rw [hje3 0 (by rw [hinact2]; omega)]
      exact hb2
    obtain ⟨row, hrow, hcellv⟩ := hb2cells r c hr hc
    exact cellAt_eq_of g3 0 r c b2 row _ hbuf0 hrow hcellv
  · have hbuf1 : g3.grids.get? 1 = some b3 := by rw [← hinact2]; exact hb3
    rcases lt_or_le r g.num_rows with hrlt | hrle
    · rcases lt_or_le c g.num_cols with hclt | hcle
      · obtain ⟨row, hrow, hcellv⟩ := hb3cells r c (by omega) (by omega)
        exact cellAt_eq_of g3 1 r c b3 row _ hbuf1 hrow hcellv
      · obtain ⟨row, hrow⟩ := get_some_of_lt b3 r (by omega)
        have hrlen : row.length = g.num_cols := by
          rw [hb3rows row (List.get?_mem hrow)]
          exact hCg
        exact cellAt_zero_of_cell_none g3 1 r c b3 row hbuf1 hrow
          (List.get?_len_le (by omega))
    · exact cellAt_zero_of_row_none g3 1 r c b3 hbuf1
        (List.get?_len_le (by omega))

theorem claim_C8_witness :
    (handle_key (initLifeGame 20 20 10 rnd0) 'r' rndAlt).active_grid = 0 ∧
    cellAt (handle_key (initLifeGame 20 20 10 rnd0) 'r' rndAlt) 0 0 1 = (rndAlt 0 1).val ∧
    cellAt (handle_key (initLifeGame 20 20 10 rnd0) 'r' rndAlt) 1 0 0 = 0 :=
  ⟨(claim_C8_randomize _ (Reachable.init 20 20 10 rnd0) rndAlt).1,
   (claim_C8_randomize _ (Reachable.init 20 20 10 rnd0) rndAlt).2.1 0 (by decide) 1 (by decide),
   (claim_C8_randomize _ (Reachable.init 20 20 10 rnd0) rndAlt).2.2 0 0⟩

/-- C9: one `advance()` on a reachable state leaves the buffer that was
active at entry unchanged, and modifies only the formerly inactive
buffer and the active index — dimensions, pause flag and game-over flag
are untouched. -/
theorem claim_C9_reads_active_writes_inactive (g : LifeGame) (h : Reachable g) :
    (update_generation g).grids.get? g.active_grid = g.grids.get? g.active_grid ∧
    (update_generation g).active_grid = inactive_grid g ∧
    (update_generation g).num_rows = g.num_rows ∧
    (update_generation g).num_cols = g.num_cols ∧
    (update_generation g).paused = g.paused ∧
    (update_generation g).game_over = g.game_over := by
  have hw := reachable_wf g h
  obtain ⟨hR, hC, hA, hP, hG, hL, hAct, _⟩ := update_generation_spec g hw
  exact ⟨hAct, hA, hR, hC, hP, hG⟩

theorem claim_C9_witness :
    (update_generation (initLifeGame 20 20 10 rnd0)).grids.get?
        (initLifeGame 20 20 10 rnd0).active_grid =
      (initLifeGame 20 20 10 rnd0).grids.get? (initLifeGame 20 20 10 rnd0).active_grid ∧
    (update_generation (initLifeGame 20 20 10 rnd0)).active_grid =
      inactive_grid (initLifeGame 20 20 10 rnd0) ∧
    (update_generation (initLifeGame 20 20 10 rnd0)).num_rows =
      (initLifeGame 20 20 10 rnd0).num_rows ∧
    (update_generation (initLifeGame 20 20 10 rnd0)).num_cols =
      (initLifeGame 20 20 10 rnd0).num_cols ∧
    (update_generation (initLifeGame 20 20 10 rnd0)).paused =
      (initLifeGame 20 20 10 rnd0).paused ∧
    (update_generation (initLifeGame 20 20 10 rnd0)).game_over =
      (initLifeGame 20 20 10 rnd0).game_over :=
  claim_C9_reads_active_writes_inactive _ (Reachable.init 20 20 10 rnd0)

/-- C10: in every state reachable from construction via `set_grid`
(with a binary or random fill value), `update_generation`, and the key
handler, there are exactly two buffers, each of exactly `num_rows` rows
of `num_cols` cells, and every cell is 0 or 1. -/
theorem claim_C10_invariant (g : LifeGame) (h : Reachable g) :
    g.grids.length = 2 ∧
    ∀ buf ∈ g.grids, buf.length = g.num_rows ∧
      ∀ row ∈ buf, row.length = g.num_cols ∧ ∀ x ∈ row, x = 0 ∨ x = 1 := by
  obtain ⟨h1, _, h3⟩ := reachable_wf g h
  refine ⟨h1, fun buf hbuf => ?_⟩
  obtain ⟨hb1, hb2⟩ := h3 buf hbuf
  refine ⟨hb1, fun row hrow => ⟨(hb2 row hrow).1, fun x hx => ?_⟩⟩
  have := (hb2 row hrow).2 x hx
  omega

theorem claim_C10_witness :
    (initLifeGame 20 20 10 rnd0).grids.length = 2 :=
  (claim_C10_invariant _ (Reachable.init 20 20 10 rnd0)).1
